import Mathlib

/-!
Verification of the analytics aggregation and caching pipeline of the
Ultra-Analytics-Dashboard repository.

The development shallowly embeds the core TypeScript modules:
* the formatting utilities (`utils.ts`): number/percentage formatting,
  growth calculation, author-name extraction from URL paths;
* the data cache (`DataCache` in `googleApiService.ts`);
* the HTTP retry loop (`fetchWithRetry`);
* the date-window computation (`getDateRange`);
* the author aggregation (`fetchAuthorData`, post-response part);
* the report orchestrator (`fetchAnalyticsData`).

JavaScript numbers that hold counts are embedded as `Nat`, general numbers
as `ℚ`, timestamps as `Int`, and `Date` values as integer day numbers with
civil-calendar conversions mirroring the ECMAScript `Date` operations used
by the source.  Fallible steps (thrown exceptions, rejected promises) are
embedded with `Except`.
-/

namespace UltraAnalytics

/-! ### Embedding of JavaScript number formatting -/

/-- Floor of a rational number, computed from its normalized fraction. -/
def ratFloor (q : ℚ) : ℤ := Int.fdiv q.num q.den

/-- Left-pads a digit string with zeros up to width `d`. -/
def padZeros (s : String) (d : Nat) : String :=
  if s.length < d then String.mk (List.replicate (d - s.length) '0') ++ s else s

/-- Embedding of JavaScript `Number.prototype.toFixed`: the sign is taken
off first and the magnitude is rounded half-up to `d` fractional digits,
as the ECMAScript algorithm specifies. -/
def toFixed (x : ℚ) (d : Nat) : String :=
  let sign := if x < 0 then "-" else ""
  let n : ℕ := (ratFloor (|x| * ((10 : ℚ) ^ d) + 1/2)).toNat
  if d = 0 then sign ++ Nat.repr n
  else sign ++ Nat.repr (n / 10 ^ d) ++ "." ++ padZeros (Nat.repr (n % 10 ^ d)) d

/-- Groups a digit list into comma-separated groups of three, working from
the least-significant end (embedding of `toLocaleString('en-US')` for
non-negative integers). -/
def commaGroupRev : List Char → List Char
  | c1 :: c2 :: c3 :: c4 :: rest => c1 :: c2 :: c3 :: ',' :: commaGroupRev (c4 :: rest)
  | l => l

/-- Embedding of `num.toLocaleString('en-US')` for a non-negative integer. -/
def formatNumber (num : Nat) : String :=
  String.mk (commaGroupRev (Nat.repr num).data.reverse).reverse

/-- Embedding of `shortFormatNumber` from `utils.ts` for count inputs. -/
def shortFormatNumber (num : Nat) : String :=
  if num ≥ 1000000 then toFixed ((num : ℚ) / 1000000) 1 ++ "M"
  else if num ≥ 1000 then toFixed ((num : ℚ) / 1000) 1 ++ "K"
  else Nat.repr num

/-- Embedding of `formatPercentage` from `utils.ts` (numeric input case). -/
def formatPercentage (num : ℚ) (fractionDigits : Nat := 2) : String :=
  toFixed (num * 100) fractionDigits ++ "%"

/-- Embedding of `formatDecimal` from `utils.ts` (numeric input case). -/
def formatDecimal (num : ℚ) (fractionDigits : Nat := 1) : String :=
  toFixed num fractionDigits

/-- Embedding of `calculateGrowth` from `utils.ts`. -/
def calculateGrowth (current previous : ℚ) : String :=
  if previous = 0 then
    if current = 0 then "0%"
    else if current > 0 then "+100%"
    else "—"
  else
    let percentage := (current - previous) / previous
    let formatted := formatPercentage percentage 1
    if percentage ≥ 0 then "+" ++ formatted else formatted

/-- Growth direction classification values of `getGrowthType`. -/
inductive GrowthType where
  | increase
  | decrease
  | neutral
deriving DecidableEq, Repr

/-- Embedding of `getGrowthType` from `utils.ts`. -/
def getGrowthType (change : String) : GrowthType :=
  if change = "—" ∨ change = "0%" ∨ change = "+0.0%" ∨ change = "-0.0%" then .neutral
  else if change.startsWith "-" then .decrease
  else .increase

theorem ratFloor_eq_floor (q : ℚ) : ratFloor q = ⌊q⌋ := by
  rw [ratFloor, Int.fdiv_eq_ediv _ (Int.ofNat_nonneg _)]
  conv_rhs => rw [← Rat.num_div_den q]
  rw [Rat.floor_intCast_div_natCast]

theorem toFixed_eval_nonneg (x : ℚ) (d : Nat) (n : ℕ) (hx : ¬ x < 0)
    (hn : ⌊|x| * (10 : ℚ) ^ d + 1/2⌋ = (n : ℤ)) (hd : d ≠ 0) :
    toFixed x d = Nat.repr (n / 10 ^ d) ++ "." ++ padZeros (Nat.repr (n % 10 ^ d)) d := by
  simp only [toFixed, if_neg hx, if_neg hd, ratFloor_eq_floor, hn, Int.toNat_natCast,
    String.append_empty, String.empty_append]

theorem toFixed_head_neg (x : ℚ) (d : Nat) (hx : x < 0) :
    (toFixed x d).data.head? = some '-' := by
  simp only [toFixed, if_pos hx]
  cases hd : decide (d = 0) <;>
    simp_all [String.data_append, String.append_assoc]

/-! ### Embedding of author extraction from URLs (`extractAuthorFromUrl`)

String primitives are embedded over the underlying character lists so
that every definition evaluates by kernel reduction. -/

/-- Lowercasing of a string, character by character. -/
def jsToLower (s : String) : String := String.mk (s.data.map Char.toLower)

/-- Embedding of `String.prototype.startsWith`. -/
def strStartsWith (s p : String) : Bool := p.data.isPrefixOf s.data

/-- Embedding of `String.prototype.endsWith`. -/
def strEndsWith (s p : String) : Bool := p.data.isSuffixOf s.data

/-- Embedding of `String.prototype.includes` for a single character. -/
def strContains (s : String) (c : Char) : Bool := s.data.contains c

/-- Character-list predicate for the `\d` character class applied to a
whole string. -/
def strAllDigits (s : String) : Bool := s.data.all Char.isDigit

/-- Embedding of `String.prototype.trim`. -/
def jsTrim (s : String) : String :=
  String.mk (((s.data.dropWhile Char.isWhitespace).reverse.dropWhile Char.isWhitespace).reverse)

/-- Drops `n` characters from the right of a string. -/
def strDropRight (s : String) (n : Nat) : String :=
  String.mk (s.data.take (s.data.length - n))

/-- Splits a character list on a separator character, keeping empty parts,
as `String.prototype.split` does for a single-character separator. -/
def splitChar (c : Char) : List Char → List (List Char)
  | [] => [[]]
  | x :: xs =>
    if x = c then [] :: splitChar c xs
    else
      match splitChar c xs with
      | s :: rest => (x :: s) :: rest
      | [] => [[x]]

/-- Embedding of `String.prototype.split` with a one-character separator. -/
def jsSplit (s : String) (sep : Char) : List String :=
  (splitChar sep s.data).map String.mk

/-- Embedding of the `formatAuthorName` suffix-stripping regex
`\.(html?|php|aspx?)$` (case-insensitive). -/
def stripExtension (s : String) : String :=
  let l := jsToLower s
  if strEndsWith l ".html" then strDropRight s 5
  else if strEndsWith l ".aspx" then strDropRight s 5
  else if strEndsWith l ".htm" then strDropRight s 4
  else if strEndsWith l ".php" then strDropRight s 4
  else if strEndsWith l ".asp" then strDropRight s 4
  else s

/-- Embedding of `word.charAt(0).toUpperCase() + word.slice(1).toLowerCase()`. -/
def capitalizeWord (w : String) : String :=
  match w.data with
  | [] => ""
  | c :: cs => String.mk (c.toUpper :: cs.map Char.toLower)

/-- Embedding of `formatAuthorName` from `utils.ts`. -/
def formatAuthorName (segment : String) : String :=
  let name := jsTrim (String.mk ((stripExtension segment).data.map
    (fun c => if c = '_' ∨ c = '-' then ' ' else c)))
  let name := String.intercalate " " ((jsSplit name ' ').map capitalizeWord)
  if name.data.length < 2 then "Unknown Author"
  else if strAllDigits name then "Unknown Author"
  else name

/-- Embedding of `isDateSegment` from `utils.ts` (the three date regexes). -/
def isDateSegment (s : String) : Bool :=
  (s.data.length = 4 && strAllDigits s) ||
  (s.data.length = 2 && strAllDigits s) ||
  (match jsSplit s '-' with
   | [a, b] =>
     a.data.length = 4 && strAllDigits a && b.data.length = 2 && strAllDigits b
   | [a, b, c] =>
     a.data.length = 4 && strAllDigits a && b.data.length = 2 && strAllDigits b &&
     c.data.length = 2 && strAllDigits c
   | _ => false)

/-- Embedding of `isCategorySegment` from `utils.ts`. -/
def isCategorySegment (s : String) : Bool :=
  ["category", "categories", "tag", "tags", "topic", "topics",
   "section", "sections", "news", "blog", "articles", "posts",
   "tech", "business", "health", "sports", "entertainment",
   "politics", "science", "lifestyle", "opinion", "reviews"].contains (jsToLower s)

/-- Embedding of the outer segment loop of `extractAuthorFromUrl`: for each
segment (lowercased) the ordered pattern list is tried; the first pattern
whose side condition holds returns the formatted following segment, and a
matching pattern whose side condition fails falls through to the next
segment. -/
def scanSegments : List String → Option String
  | [] => none
  | seg :: rest =>
    let s := jsToLower seg
    if s = "author" ∨ s = "authors" ∨ s = "by" ∨ s = "contributor" ∨
        s = "contributors" ∨ s = "writer" ∨ s = "writers" ∨ s = "team" then
      match rest with
      | nxt :: _ => some (formatAuthorName nxt)
      | [] => none
    else if s = "blog" then
      match rest with
      | nxt :: _ =>
        if !isDateSegment nxt && !isCategorySegment nxt then
          some (formatAuthorName nxt)
        else scanSegments rest
      | [] => none
    else if s = "posts" then
      match rest with
      | a :: b :: _ => if a = "author" then some (formatAuthorName b) else scanSegments rest
      | _ => scanSegments rest
    else scanSegments rest

/-- Model of a parsed `URL` object: the pathname and the
`searchParams.get` accessor. -/
structure UrlObj where
  pathname : String
  queryParam : String → Option String

/-- Model of the `a || b` chain on nullable strings: the empty string is
falsy in JavaScript. -/
def jsOrString (x y : Option String) : Option String :=
  match x with
  | some s => if s = "" then y else some s
  | none => y

/-- Embedding of the body of `extractAuthorFromUrl` with the host `URL`
constructor abstracted as a fallible `parseUrl` (its exceptions are the
only throwing steps of the body). -/
def extractAuthorCore (parseUrl : String → Except String UrlObj) (url : String) :
    Except String String := do
  let path ←
    if strStartsWith url "http://" || strStartsWith url "https://" then
      Except.map (fun u => u.pathname) (parseUrl url)
    else Except.ok url
  let segments := (jsSplit path '/').filter (fun s => s ≠ "")
  match scanSegments segments with
  | some r => Except.ok r
  | none =>
    if strContains url '?' then do
      let u ← parseUrl (if strStartsWith url "http" then url else "https://example.com" ++ url)
      match jsOrString (jsOrString (u.queryParam "author") (u.queryParam "writer"))
          (u.queryParam "by") with
      | some p => if p = "" then Except.ok "Unknown Author" else Except.ok (formatAuthorName p)
      | none => Except.ok "Unknown Author"
    else Except.ok "Unknown Author"

/-- Embedding of `extractAuthorFromUrl`: its `try`/`catch` maps any thrown
parse error to the sentinel. -/
def extractAuthorFromUrl (parseUrl : String → Except String UrlObj) (url : String) : String :=
  match extractAuthorCore parseUrl url with
  | Except.ok s => s
  | Except.error _ => "Unknown Author"

/-- Trivial URL parser that rejects every input; used to instantiate the
abstract host parser at inputs on which it is never consulted. -/
def rejectingParseUrl : String → Except String UrlObj :=
  fun s => Except.error s

/-! ### Embedding of the data cache (`DataCache`) -/

/-- Embedding of `Map.prototype.get` followed by projection, over an
insertion-ordered association list (the representation of a JS `Map`). -/
def mapGet {β : Type} (m : List (String × β)) (k : String) : Option β :=
  (m.find? (fun p => p.1 = k)).map (fun p => p.2)

/-- Embedding of `Map.prototype.set`: replaces the value in place if the
key is present, else appends the new entry. -/
def mapSet {β : Type} : List (String × β) → String → β → List (String × β)
  | [], k, v => [(k, v)]
  | (k', v') :: rest, k, v =>
    if k' = k then (k, v) :: rest else (k', v') :: mapSet rest k v

/-- Embedding of `Map.prototype.delete`. -/
def mapDelete {β : Type} : List (String × β) → String → List (String × β)
  | [], _ => []
  | (k', v') :: rest, k => if k' = k then rest else (k', v') :: mapDelete rest k

/-- The keys of an association list, in order. -/
def mapKeys {β : Type} (m : List (String × β)) : List String := m.map (fun p => p.1)

/-- Embedding of a `DataCache` entry: the stored payload and its
`Date.now()` timestamp. -/
structure CacheEntry (α : Type) where
  data : α
  timestamp : Int

/-- The cache TTL `CACHE_DURATION = 5 * 60 * 1000` milliseconds. -/
def CACHE_DURATION : Int := 5 * 60 * 1000

/-- Embedding of `DataCache.get`, returning the payload (or `null`) and
the cache state after the lazy eviction. -/
def cacheGet {α : Type} (m : List (String × CacheEntry α)) (k : String) (now : Int) :
    Option α × List (String × CacheEntry α) :=
  match mapGet m k with
  | some entry =>
    if now - entry.timestamp < CACHE_DURATION then (some entry.data, m)
    else (none, mapDelete m k)
  | none => (none, m)

/-- Embedding of `DataCache.set`. -/
def cacheSet {α : Type} (m : List (String × CacheEntry α)) (k : String) (d : α) (now : Int) :
    List (String × CacheEntry α) :=
  mapSet m k ⟨d, now⟩

/-- Embedding of `DataCache.clear`. -/
def cacheClear {α : Type} : List (String × CacheEntry α) := []

theorem mapGet_nil {β : Type} (k : String) : mapGet ([] : List (String × β)) k = none := rfl

theorem mapGet_cons {β : Type} (p : String × β) (rest : List (String × β)) (k : String) :
    mapGet (p :: rest) k = if p.1 = k then some p.2 else mapGet rest k := by
  by_cases h : p.1 = k <;> simp [mapGet, List.find?, h]

theorem mapKeys_cons {β : Type} (p : String × β) (rest : List (String × β)) :
    mapKeys (p :: rest) = p.1 :: mapKeys rest := rfl

theorem mapGet_mapSet_self {β : Type} (m : List (String × β)) (k : String) (v : β) :
    mapGet (mapSet m k v) k = some v := by
  induction m with
  | nil => simp [mapSet, mapGet_cons, mapGet_nil]
  | cons p rest ih =>
    by_cases h : p.1 = k
    · simp [mapSet, h, mapGet_cons]
    · simp only [mapSet]
      rw [if_neg h]
      rw [mapGet_cons, if_neg h]
      exact ih

theorem mapGet_eq_none_of_not_mem {β : Type} (m : List (String × β)) (k : String)
    (h : k ∉ mapKeys m) : mapGet m k = none := by
  induction m with
  | nil => exact mapGet_nil k
  | cons p rest ih =>
    rw [mapKeys_cons, List.mem_cons, not_or] at h
    rw [mapGet_cons, if_neg (fun hh => h.1 hh.symm)]
    exact ih h.2

theorem mapKeys_mapSet {β : Type} (m : List (String × β)) (k : String) (v : β) :
    mapKeys (mapSet m k v) = mapKeys m ∨ mapKeys (mapSet m k v) = mapKeys m ++ [k] := by
  induction m with
  | nil => right; simp [mapKeys, mapSet]
  | cons p rest ih =>
    by_cases h : p.1 = k
    · left; simp [mapKeys, mapSet, h]
    · simp only [mapSet]
      rw [if_neg h, mapKeys_cons, mapKeys_cons]
      rcases ih with ih | ih
      · left; rw [ih]
      · right; rw [ih]; rfl

theorem nodup_mapKeys_mapSet {β : Type} (m : List (String × β)) (k : String) (v : β)
    (h : (mapKeys m).Nodup) : (mapKeys (mapSet m k v)).Nodup := by
  induction m with
  | nil => simp [mapKeys, mapSet]
  | cons p rest ih =>
    rw [mapKeys_cons, List.nodup_cons] at h
    by_cases hk : p.1 = k
    · subst hk
      simpa [mapKeys_cons, mapSet, List.nodup_cons] using h
    · simp only [mapSet]
      rw [if_neg hk, mapKeys_cons, List.nodup_cons]
      refine ⟨?_, ih h.2⟩
      rcases mapKeys_mapSet rest k v with heq | heq
      · rw [heq]; exact h.1
      · rw [heq]
        simp only [List.mem_append, List.mem_singleton, not_or]
        exact ⟨h.1, fun hc => hk hc⟩

theorem mapGet_mapDelete_self {β : Type} (m : List (String × β)) (k : String)
    (h : (mapKeys m).Nodup) : mapGet (mapDelete m k) k = none := by
  induction m with
  | nil => exact mapGet_nil k
  | cons p rest ih =>
    rw [mapKeys_cons, List.nodup_cons] at h
    by_cases hk : p.1 = k
    · simp only [mapDelete]
      rw [if_pos hk]
      exact mapGet_eq_none_of_not_mem rest k (hk ▸ h.1)
    · simp only [mapDelete]
      rw [if_neg hk, mapGet_cons, if_neg hk]
      exact ih h.2

/-- C2: a payload stored at time `t` is returned unchanged, with the cache
untouched, by any `get` strictly less than five minutes later, and a `get`
five or more minutes later misses and evicts the entry. -/
theorem cache_ttl (α : Type) (m : List (String × CacheEntry α)) (k : String) (d : α)
    (t tr : Int) (hnd : (mapKeys m).Nodup) :
    (tr - t < CACHE_DURATION →
      cacheGet (cacheSet m k d t) k tr = (some d, cacheSet m k d t)) ∧
    (CACHE_DURATION ≤ tr - t →
      (cacheGet (cacheSet m k d t) k tr).1 = none ∧
      mapGet (cacheGet (cacheSet m k d t) k tr).2 k = none) := by
  have hget : mapGet (cacheSet m k d t) k = some ⟨d, t⟩ := mapGet_mapSet_self m k _
  constructor
  · intro hfresh
    simp [cacheGet, hget, hfresh]
  · intro hstale
    have hcond : ¬ (tr - t < CACHE_DURATION) := not_lt.mpr hstale
    refine ⟨by simp [cacheGet, hget, hcond], ?_⟩
    simp only [cacheGet, hget, if_neg hcond]
    exact mapGet_mapDelete_self _ k (nodup_mapKeys_mapSet m k _ hnd)

/-- Witness for C2: a concrete store at `t = 0` read at `t = 299999`
(hit, unchanged) and at `t = 300000` (miss, entry evicted). -/
theorem cache_ttl_witness :
    cacheGet (cacheSet ([] : List (String × CacheEntry Nat)) "gsc_rows" 7 0) "gsc_rows" 299999 =
      (some 7, cacheSet [] "gsc_rows" 7 0) ∧
    (cacheGet (cacheSet ([] : List (String × CacheEntry Nat)) "gsc_rows" 7 0) "gsc_rows" 300000).1 =
      none :=
  ⟨(cache_ttl Nat [] "gsc_rows" 7 0 299999 (by decide)).1 (by decide),
   ((cache_ttl Nat [] "gsc_rows" 7 0 300000 (by decide)).2 (by decide)).1⟩

/-! ### Embedding of the HTTP retry loop (`fetchWithRetry`) -/

/-- Model of a `fetch` `Response`: status line, optional parsed
`Retry-After` header (in seconds), and body text. -/
structure HttpResponse where
  status : Nat
  statusText : String
  retryAfter : Option Nat
  body : String
deriving DecidableEq, Repr

/-- Embedding of `Response.ok`: status in the 2xx range. -/
def HttpResponse.ok (r : HttpResponse) : Bool := decide (200 ≤ r.status ∧ r.status ≤ 299)

/-- Outcome of one transport attempt: a settled response or a thrown
transport-level error. -/
inductive TransportResult where
  | resp (r : HttpResponse)
  | exn (e : String)

/-- Observable outcome of the whole retry loop: the returned response or
thrown error, the number of transport calls issued, and the list of
backoff delays awaited (in milliseconds). -/
structure RetryOutcome where
  result : Except String HttpResponse
  calls : Nat
  delays : List Nat
deriving Repr

/-- Embedding of the `for` loop of `fetchWithRetry`: `n` is the number of
remaining iterations (`maxRetries - i`), `i` the attempt index, and the
third argument the `lastError` accumulator. -/
def fetchWithRetryGo (transport : Nat → TransportResult) (maxRetries : Nat) :
    Nat → Nat → Option String → RetryOutcome
  | 0, _, lastError => ⟨Except.error (lastError.getD "Failed to fetch after retries"), 0, []⟩
  | n+1, i, lastError =>
    match transport i with
    | TransportResult.exn e =>
      let delays := if i < maxRetries - 1 then [(i + 1) * 1000] else []
      let rest := fetchWithRetryGo transport maxRetries n (i + 1) (some e)
      ⟨rest.result, rest.calls + 1, delays ++ rest.delays⟩
    | TransportResult.resp r =>
      if r.ok then ⟨Except.ok r, 1, []⟩
      else if r.status = 429 then
        let delay := match r.retryAfter with
          | some s => s * 1000
          | none => (i + 1) * 2000
        let rest := fetchWithRetryGo transport maxRetries n (i + 1) lastError
        ⟨rest.result, rest.calls + 1, delay :: rest.delays⟩
      else if r.status = 401 ∨ r.status = 403 then ⟨Except.ok r, 1, []⟩
      else
        let rest := fetchWithRetryGo transport maxRetries n (i + 1)
          (some ("HTTP " ++ Nat.repr r.status ++ ": " ++ r.statusText))
        ⟨rest.result, rest.calls + 1, rest.delays⟩

/-- Embedding of `fetchWithRetry` (default `maxRetries = 3`). -/
def fetchWithRetry (transport : Nat → TransportResult) (maxRetries : Nat := 3) : RetryOutcome :=
  fetchWithRetryGo transport maxRetries maxRetries 0 none

theorem fetchWithRetryGo_succ_other (transport : Nat → TransportResult)
    (maxRetries n i : Nat) (le : Option String) (rr : HttpResponse)
    (hrr : transport i = TransportResult.resp rr) (hok : rr.ok = false)
    (h429 : rr.status ≠ 429) (h401 : rr.status ≠ 401) (h403 : rr.status ≠ 403) :
    fetchWithRetryGo transport maxRetries (n + 1) i le =
      ⟨(fetchWithRetryGo transport maxRetries n (i + 1)
          (some ("HTTP " ++ Nat.repr rr.status ++ ": " ++ rr.statusText))).result,
       (fetchWithRetryGo transport maxRetries n (i + 1)
          (some ("HTTP " ++ Nat.repr rr.status ++ ": " ++ rr.statusText))).calls + 1,
       (fetchWithRetryGo transport maxRetries n (i + 1)
          (some ("HTTP " ++ Nat.repr rr.status ++ ": " ++ rr.statusText))).delays⟩ := by
  simp [fetchWithRetryGo, hrr, hok, h429, h401, h403]

theorem fetchWithRetryGo_other_errors (transport : Nat → TransportResult) (maxRetries : Nat) :
    ∀ (n i : Nat) (le : Option String) (r : HttpResponse),
      (∀ j, i ≤ j → j < i + (n + 1) → ∃ rr, transport j = TransportResult.resp rr ∧
        rr.ok = false ∧ rr.status ≠ 429 ∧ rr.status ≠ 401 ∧ rr.status ≠ 403) →
      transport (i + n) = TransportResult.resp r →
      fetchWithRetryGo transport maxRetries (n + 1) i le =
        ⟨Except.error ("HTTP " ++ Nat.repr r.status ++ ": " ++ r.statusText), n + 1, []⟩ := by
  intro n
  induction n with
  | zero =>
    intro i le r hall hlast
    obtain ⟨rr, hrr, hok, h429, h401, h403⟩ := hall i (le_refl i) (by omega)
    rw [Nat.add_zero] at hlast
    rw [hlast] at hrr
    cases hrr
    simp [fetchWithRetryGo, hlast, hok, h429, h401, h403]
  | succ m ih =>
    intro i le r hall hlast
    obtain ⟨rr, hrr, hok, h429, h401, h403⟩ := hall i (le_refl i) (by omega)
    have hrest := ih (i + 1) (some ("HTTP " ++ Nat.repr rr.status ++ ": " ++ rr.statusText)) r
      (fun j hj1 hj2 => hall j (by omega) (by omega)) (by rw [← hlast]; ring_nf)
    rw [fetchWithRetryGo_succ_other transport maxRetries (m + 1) i le rr hrr hok h429 h401 h403]
    rw [hrest]

/-- C4 amended: when every attempt yields a non-2xx response other than
429/401/403, the loop exhausts `maxRetries` attempts without any backoff
delay and throws the error `"HTTP {status}: {statusText}"` built from the
status line of the last response; the response body is never consulted. -/
theorem fetchWithRetry_exhaustion_status_line (transport : Nat → TransportResult)
    (maxRetries : Nat) (r : HttpResponse) (h1 : 1 ≤ maxRetries)
    (hall : ∀ j, j < maxRetries → ∃ rr, transport j = TransportResult.resp rr ∧
      rr.ok = false ∧ rr.status ≠ 429 ∧ rr.status ≠ 401 ∧ rr.status ≠ 403)
    (hlast : transport (maxRetries - 1) = TransportResult.resp r) :
    fetchWithRetry transport maxRetries =
      ⟨Except.error ("HTTP " ++ Nat.repr r.status ++ ": " ++ r.statusText), maxRetries, []⟩ := by
  obtain ⟨m, rfl⟩ : ∃ m, maxRetries = m + 1 := ⟨maxRetries - 1, by omega⟩
  rw [fetchWithRetry]
  exact fetchWithRetryGo_other_errors transport (m + 1) m 0 none r
    (fun j hj1 hj2 => hall j (by omega)) (by simpa using hlast)

/-- Transport that always answers HTTP 500 with a JSON error body carrying
an `error.message` field. -/
def transport500 : Nat → TransportResult :=
  fun _ => TransportResult.resp
    ⟨500, "Internal Server Error", none, "\x7b\"error\": \x7b\"message\": \"Quota exceeded\"\x7d\x7d"⟩

/-- Transport identical to `transport500` except for an empty body. -/
def transport500NoBody : Nat → TransportResult :=
  fun _ => TransportResult.resp ⟨500, "Internal Server Error", none, ""⟩

/-- C4 counterexample: after exhausting retries on HTTP 500 responses
whose body holds `error.message = "Quota exceeded"`, the surfaced error is
`"HTTP 500: Internal Server Error"`, built from the status line and not
from the body: the body's message does not appear, and a transport
differing only in its body yields the identical error. -/
theorem fetchWithRetry_body_ignored_counterexample :
    (fetchWithRetry transport500 3).result = Except.error "HTTP 500: Internal Server Error" ∧
    "HTTP 500: Internal Server Error" ≠ "Quota exceeded" ∧
    (fetchWithRetry transport500NoBody 3).result = (fetchWithRetry transport500 3).result := by
  exact ⟨rfl, by decide, rfl⟩

/-- C5: a 401 or 403 response on the first attempt is returned
immediately: exactly one transport call, no backoff delay, and the
response itself (not an error) as the result. -/
theorem fetchWithRetry_auth_immediate (transport : Nat → TransportResult)
    (maxRetries : Nat) (r : HttpResponse) (h1 : 1 ≤ maxRetries)
    (h0 : transport 0 = TransportResult.resp r)
    (hs : r.status = 401 ∨ r.status = 403) :
    fetchWithRetry transport maxRetries = ⟨Except.ok r, 1, []⟩ := by
  obtain ⟨m, rfl⟩ : ∃ m, maxRetries = m + 1 := ⟨maxRetries - 1, by omega⟩
  have hok : r.ok = false := by
    rcases hs with h | h <;> simp [HttpResponse.ok, h]
  have h429 : ¬ r.status = 429 := by rcases hs with h | h <;> omega
  rw [fetchWithRetry]
  simp [fetchWithRetryGo, h0, hok, h429, hs]

/-- Witness for C5: a transport answering 401 Unauthorized is returned
after exactly one call with no delay. -/
theorem fetchWithRetry_auth_immediate_witness :
    fetchWithRetry (fun _ => TransportResult.resp ⟨401, "Unauthorized", none, ""⟩) 3 =
      ⟨Except.ok ⟨401, "Unauthorized", none, ""⟩, 1, []⟩ :=
  fetchWithRetry_auth_immediate _ 3 _ (by omega) rfl (Or.inl rfl)

/-- Witness for C4 (amended): three straight HTTP 500 responses exhaust
the loop with three calls, no delays, and the status-line error. -/
theorem fetchWithRetry_exhaustion_status_line_witness :
    fetchWithRetry transport500 3 =
      ⟨Except.error "HTTP 500: Internal Server Error", 3, []⟩ :=
  fetchWithRetry_exhaustion_status_line transport500 3
    ⟨500, "Internal Server Error", none, "\x7b\"error\": \x7b\"message\": \"Quota exceeded\"\x7d\x7d"⟩
    (by omega)
    (fun j _ => ⟨_, rfl, by decide, by decide, by decide, by decide⟩) rfl

/-! ### Embedding of `Date` arithmetic and `getDateRange`

A `Date` is embedded as an integer count of days since the Unix epoch;
the civil-calendar conversions implement the proleptic Gregorian calendar
that ECMAScript `Date` uses. -/

/-- Civil date `(year, month 1..12, day)` of an epoch day number. -/
def civilFromDays (z0 : Int) : Int × Int × Int :=
  let z := z0 + 719468
  let era := Int.fdiv z 146097
  let doe := z - era * 146097
  let yoe := Int.fdiv (doe - Int.fdiv doe 1460 + Int.fdiv doe 36524 - Int.fdiv doe 146096) 365
  let y := yoe + era * 400
  let doy := doe - (365 * yoe + Int.fdiv yoe 4 - Int.fdiv yoe 100)
  let mp := Int.fdiv (5 * doy + 2) 153
  let d := doy - Int.fdiv (153 * mp + 2) 5 + 1
  let m := if mp < 10 then mp + 3 else mp - 9
  (if m ≤ 2 then y + 1 else y, m, d)

/-- Epoch day number of a civil date `(year, month 1..12, day)`. -/
def daysFromCivil (y0 m d : Int) : Int :=
  let y := if m ≤ 2 then y0 - 1 else y0
  let era := Int.fdiv y 400
  let yoe := y - era * 400
  let mp := if m > 2 then m - 3 else m + 9
  let doy := Int.fdiv (153 * mp + 2) 5 + d - 1
  let doe := yoe * 365 + Int.fdiv yoe 4 - Int.fdiv yoe 100 + doy
  era * 146097 + doe - 719468

/-- Embedding of `Date.prototype.getDate` (day of month, 1-based). -/
def jsGetDate (t : Int) : Int := (civilFromDays t).2.2

/-- Embedding of `Date.prototype.getMonth` (0-based month). -/
def jsGetMonth (t : Int) : Int := (civilFromDays t).2.1 - 1

/-- Embedding of `Date.prototype.setDate`: `MakeDay(year, month, n)` is
the first of the current month plus `n - 1` days, which is `t` shifted by
`n - getDate(t)` days. -/
def jsSetDate (t n : Int) : Int := t - jsGetDate t + n

/-- Embedding of `Date.prototype.setMonth` with a 0-based (possibly
negative) month `jsm`: `MakeDay` normalizes the month into the year and
adds `getDate(t) - 1` days to the first of the target month, overflowing
into the next month exactly as ECMAScript does. -/
def jsSetMonth (t jsm : Int) : Int :=
  let y := (civilFromDays t).1
  let ym := y + Int.fdiv jsm 12
  let mn := Int.emod jsm 12
  daysFromCivil ym (mn + 1) 1 + (jsGetDate t - 1)

/-- The date-range selector enumeration (`FilterState['dateRange']`). -/
inductive DateRange where
  | last28d
  | last30d
  | last3m
  | last6m
  | custom
deriving DecidableEq, Repr

/-- The four day numbers produced by `getDateRange`. -/
structure DateWindows where
  startDate : Int
  endDate : Int
  previousStartDate : Int
  previousEndDate : Int
deriving DecidableEq, Repr

/-- Embedding of `getDateRange` from `googleApiService.ts` with the
implicit `new Date()` made explicit as the `today` day number. -/
def getDateRange (dateRange : DateRange) (today : Int) : DateWindows :=
  let endDate := jsSetDate today (jsGetDate today - 1)
  let p : Int × Int :=
    match dateRange with
    | DateRange.last30d => (30, jsSetDate endDate (jsGetDate endDate - 29))
    | DateRange.last3m => (90, jsSetMonth endDate (jsGetMonth endDate - 3))
    | DateRange.last6m => (180, jsSetMonth endDate (jsGetMonth endDate - 6))
    | _ => (28, jsSetDate endDate (jsGetDate endDate - 27))
  let daysDiff := p.1
  let startDate := p.2
  let previousEndDate := jsSetDate startDate (jsGetDate startDate - 1)
  let previousStartDate := jsSetDate previousEndDate (jsGetDate previousEndDate - (daysDiff - 1))
  ⟨startDate, endDate, previousStartDate, previousEndDate⟩

/-! ### Embedding of the author aggregation (`fetchAuthorData`) -/

/-- One raw GA4 row of the author report: a page path and its pageviews. -/
structure PageRow where
  pagePath : String
  pageviews : Nat
deriving DecidableEq, Repr

/-- Accumulator per author: the `Set` of article paths (insertion-ordered,
duplicate-free) and the running pageview total. -/
structure AuthorAccum where
  articles : List String
  totalPageviews : Nat
deriving DecidableEq, Repr

/-- One entry of the `AuthorData[]` result. -/
structure AuthorData where
  author : String
  articles : Nat
  totalPageviews : Nat
  avgPageviews : ℚ
deriving DecidableEq, Repr

/-- Embedding of `Set.prototype.add`. -/
def addArticle (l : List String) (p : String) : List String :=
  if p ∈ l then l else l ++ [p]

/-- The author extracted for a row's page path. -/
def rowAuthor (parseUrl : String → Except String UrlObj) (row : PageRow) : String :=
  extractAuthorFromUrl parseUrl row.pagePath

/-- Embedding of the `result.rows.forEach` body of `fetchAuthorData`:
rows whose author is the sentinel are skipped; otherwise the author's
accumulator is updated in the map. -/
def processRow (parseUrl : String → Except String UrlObj)
    (m : List (String × AuthorAccum)) (row : PageRow) : List (String × AuthorAccum) :=
  let author := rowAuthor parseUrl row
  if author = "Unknown Author" then m
  else
    let existing := (mapGet m author).getD ⟨[], 0⟩
    mapSet m author ⟨addArticle existing.articles row.pagePath,
      existing.totalPageviews + row.pageviews⟩

/-- The descending-by-total-pageviews order of the `.sort` comparator
`(a, b) => b.totalPageviews - a.totalPageviews`. -/
def byViewsDesc (a b : AuthorData) : Prop := b.totalPageviews ≤ a.totalPageviews

instance : DecidableRel byViewsDesc :=
  fun a b => Nat.decLe b.totalPageviews a.totalPageviews

instance : IsTotal AuthorData byViewsDesc :=
  ⟨fun a b => le_total b.totalPageviews a.totalPageviews⟩

instance : IsTrans AuthorData byViewsDesc :=
  ⟨fun _ _ _ hab hbc => le_trans hbc hab⟩

/-- Embedding of the aggregation part of `fetchAuthorData` (after the
response rows arrive): group by extracted author skipping the sentinel,
map each accumulator to an `AuthorData`, sort by total pageviews
descending, and keep the first `topN`. -/
def aggregateAuthorData (parseUrl : String → Except String UrlObj)
    (rows : List PageRow) (topN : Nat) : List AuthorData :=
  let m := rows.foldl (processRow parseUrl) []
  let arr := m.map (fun e =>
    AuthorData.mk e.1 e.2.articles.length e.2.totalPageviews
      ((e.2.totalPageviews : ℚ) / (e.2.articles.length : ℚ)))
  (List.insertionSort byViewsDesc arr).take topN

/-- The rows attributed to author `a` (reference restatement). -/
def rowsFor (parseUrl : String → Except String UrlObj) (rows : List PageRow) (a : String) :
    List PageRow :=
  rows.filter (fun r => rowAuthor parseUrl r = a)

/-- The total pageviews of the rows attributed to `a` (reference
restatement). -/
def sumViewsFor (parseUrl : String → Except String UrlObj) (rows : List PageRow) (a : String) :
    Nat :=
  ((rowsFor parseUrl rows a).map (fun r => r.pageviews)).sum

/-- The page paths of the rows attributed to `a`, in order. -/
def pathsFor (parseUrl : String → Except String UrlObj) (rows : List PageRow) (a : String) :
    List String :=
  (rowsFor parseUrl rows a).map (fun r => r.pagePath)

/-- The number of distinct page paths attributed to `a` (reference
restatement). -/
def distinctPathsFor (parseUrl : String → Except String UrlObj) (rows : List PageRow)
    (a : String) : Nat :=
  (pathsFor parseUrl rows a).toFinset.card

/-- The non-sentinel authors extracted from the rows, with multiplicity. -/
def attributedAuthors (parseUrl : String → Except String UrlObj) (rows : List PageRow) :
    List String :=
  (rows.map (rowAuthor parseUrl)).filter (fun a => a ≠ "Unknown Author")

theorem mapGet_mapSet_other {β : Type} (m : List (String × β)) (k k' : String) (v : β)
    (h : k' ≠ k) : mapGet (mapSet m k' v) k = mapGet m k := by
  induction m with
  | nil => simp [mapSet, mapGet_cons, mapGet_nil, h]
  | cons p rest ih =>
    by_cases hp : p.1 = k'
    · simp only [mapSet]
      rw [if_pos hp, mapGet_cons, mapGet_cons, if_neg h, if_neg (hp ▸ h)]
    · simp only [mapSet]
      rw [if_neg hp, mapGet_cons, mapGet_cons]
      by_cases hk : p.1 = k
      · rw [if_pos hk, if_pos hk]
      · rw [if_neg hk, if_neg hk]
        exact ih

theorem mem_mapKeys_of_mapGet_isSome {β : Type} (m : List (String × β)) (k : String)
    (h : (mapGet m k).isSome = true) : k ∈ mapKeys m := by
  by_contra hc
  rw [mapGet_eq_none_of_not_mem m k hc] at h
  simp at h

theorem mapGet_eq_some_of_mem {β : Type} (m : List (String × β))
    (hnd : (mapKeys m).Nodup) (a : String) (v : β) (hm : (a, v) ∈ m) :
    mapGet m a = some v := by
  induction m with
  | nil => simp at hm
  | cons p rest ih =>
    rw [mapKeys_cons, List.nodup_cons] at hnd
    rcases List.mem_cons.mp hm with heq | hmem
    · rw [← heq, mapGet_cons, if_pos rfl]
    · have ha : a ∈ mapKeys rest := List.mem_map.mpr ⟨(a, v), hmem, rfl⟩
      have hne : ¬ p.1 = a := fun hc => hnd.1 (hc ▸ ha)
      rw [mapGet_cons, if_neg hne]
      exact ih hnd.2 hmem

/-- The per-row update of a single author's accumulator, as seen from the
map lookup. -/
def accumStep (acc : Option AuthorAccum) (row : PageRow) : Option AuthorAccum :=
  let e := acc.getD ⟨[], 0⟩
  some ⟨addArticle e.articles row.pagePath, e.totalPageviews + row.pageviews⟩

/-- The evolution of one author's map entry across the row loop. -/
def optFold (parseUrl : String → Except String UrlObj) (a : String)
    (rows : List PageRow) (acc : Option AuthorAccum) : Option AuthorAccum :=
  rows.foldl (fun acc row => if rowAuthor parseUrl row = a then accumStep acc row else acc) acc

theorem mapGet_foldl_processRow (parseUrl : String → Except String UrlObj) (a : String)
    (ha : a ≠ "Unknown Author") :
    ∀ (rows : List PageRow) (m : List (String × AuthorAccum)),
      mapGet (rows.foldl (processRow parseUrl) m) a = optFold parseUrl a rows (mapGet m a) := by
  intro rows
  induction rows with
  | nil => intro m; rfl
  | cons r rows ih =>
    intro m
    rw [List.foldl_cons, ih (processRow parseUrl m r)]
    have hstep : mapGet (processRow parseUrl m r) a =
        (if rowAuthor parseUrl r = a then accumStep (mapGet m a) r else mapGet m a) := by
      by_cases hu : rowAuthor parseUrl r = "Unknown Author"
      · rw [if_neg (fun hc => ha (hc.symm.trans hu))]
        simp [processRow, hu]
      · by_cases hea : rowAuthor parseUrl r = a
        · rw [if_pos hea]
          simp only [processRow, hea]
          rw [if_neg ha, mapGet_mapSet_self]
          rfl
        · rw [if_neg hea]
          simp only [processRow, if_neg hu]
          exact mapGet_mapSet_other m a (rowAuthor parseUrl r) _ hea
    rw [hstep]
    rfl

theorem optFold_total (parseUrl : String → Except String UrlObj) (a : String) :
    ∀ (rows : List PageRow) (acc : Option AuthorAccum),
      ((optFold parseUrl a rows acc).getD ⟨[], 0⟩).totalPageviews =
        (acc.getD ⟨[], 0⟩).totalPageviews + sumViewsFor parseUrl rows a := by
  intro rows
  induction rows with
  | nil => intro acc; simp [optFold, sumViewsFor, rowsFor]
  | cons r rows ih =>
    intro acc
    by_cases h : rowAuthor parseUrl r = a
    · have hl : optFold parseUrl a (r :: rows) acc = optFold parseUrl a rows (accumStep acc r) := by
        simp [optFold, List.foldl_cons, h]
      rw [hl, ih]
      have hsum : sumViewsFor parseUrl (r :: rows) a = r.pageviews + sumViewsFor parseUrl rows a := by
        simp [sumViewsFor, rowsFor, List.filter_cons, h]
      rw [hsum]
      simp only [accumStep, Option.getD_some]
      omega
    · have hl : optFold parseUrl a (r :: rows) acc = optFold parseUrl a rows acc := by
        simp [optFold, List.foldl_cons, h]
      rw [hl, ih]
      have hsum : sumViewsFor parseUrl (r :: rows) a = sumViewsFor parseUrl rows a := by
        simp [sumViewsFor, rowsFor, List.filter_cons, h]
      rw [hsum]

theorem optFold_articles (parseUrl : String → Except String UrlObj) (a : String) :
    ∀ (rows : List PageRow) (acc : Option AuthorAccum),
      ((optFold parseUrl a rows acc).getD ⟨[], 0⟩).articles =
        (pathsFor parseUrl rows a).foldl addArticle ((acc.getD ⟨[], 0⟩).articles) := by
  intro rows
  induction rows with
  | nil => intro acc; simp [optFold, pathsFor, rowsFor]
  | cons r rows ih =>
    intro acc
    by_cases h : rowAuthor parseUrl r = a
    · have hl : optFold parseUrl a (r :: rows) acc = optFold parseUrl a rows (accumStep acc r) := by
        simp [optFold, List.foldl_cons, h]
      have hp : pathsFor parseUrl (r :: rows) a = r.pagePath :: pathsFor parseUrl rows a := by
        simp [pathsFor, rowsFor, List.filter_cons, h]
      rw [hl, ih, hp, List.foldl_cons]
      rfl
    · have hl : optFold parseUrl a (r :: rows) acc = optFold parseUrl a rows acc := by
        simp [optFold, List.foldl_cons, h]
      have hp : pathsFor parseUrl (r :: rows) a = pathsFor parseUrl rows a := by
        simp [pathsFor, rowsFor, List.filter_cons, h]
      rw [hl, ih, hp]

theorem optFold_isSome_mono (parseUrl : String → Except String UrlObj) (a : String) :
    ∀ (rows : List PageRow) (acc : Option AuthorAccum), acc.isSome = true →
      (optFold parseUrl a rows acc).isSome = true := by
  intro rows
  induction rows with
  | nil => intro acc h; exact h
  | cons r rows ih =>
    intro acc h
    by_cases hr : rowAuthor parseUrl r = a
    · have hl : optFold parseUrl a (r :: rows) acc = optFold parseUrl a rows (accumStep acc r) := by
        simp [optFold, List.foldl_cons, hr]
      rw [hl]
      exact ih _ (by simp [accumStep])
    · have hl : optFold parseUrl a (r :: rows) acc = optFold parseUrl a rows acc := by
        simp [optFold, List.foldl_cons, hr]
      rw [hl]
      exact ih _ h

theorem optFold_isSome_of_hit (parseUrl : String → Except String UrlObj) (a : String) :
    ∀ (rows : List PageRow) (acc : Option AuthorAccum),
      (∃ r, r ∈ rows ∧ rowAuthor parseUrl r = a) →
      (optFold parseUrl a rows acc).isSome = true := by
  intro rows
  induction rows with
  | nil => intro acc h; obtain ⟨r, hr, _⟩ := h; simp at hr
  | cons r rows ih =>
    intro acc ⟨r0, hr0, hauth⟩
    by_cases hr : rowAuthor parseUrl r = a
    · have hl : optFold parseUrl a (r :: rows) acc = optFold parseUrl a rows (accumStep acc r) := by
        simp [optFold, List.foldl_cons, hr]
      rw [hl]
      exact optFold_isSome_mono parseUrl a rows _ (by simp [accumStep])
    · have hl : optFold parseUrl a (r :: rows) acc = optFold parseUrl a rows acc := by
        simp [optFold, List.foldl_cons, hr]
      rw [hl]
      rcases List.mem_cons.mp hr0 with heq | hmem
      · exact absurd (heq ▸ hauth) hr
      · exact ih acc ⟨r0, hmem, hauth⟩

theorem keys_foldl_processRow (parseUrl : String → Except String UrlObj) :
    ∀ (rows : List PageRow) (m : List (String × AuthorAccum)) (k : String),
      k ∈ mapKeys (rows.foldl (processRow parseUrl) m) →
      k ∈ mapKeys m ∨ (k ≠ "Unknown Author" ∧ ∃ r, r ∈ rows ∧ rowAuthor parseUrl r = k) := by
  intro rows
  induction rows with
  | nil => intro m k h; exact Or.inl h
  | cons r rows ih =>
    intro m k h
    rw [List.foldl_cons] at h
    rcases ih (processRow parseUrl m r) k h with hin | ⟨hne, r0, hr0, hauth⟩
    · by_cases hu : rowAuthor parseUrl r = "Unknown Author"
      · left
        simpa [processRow, hu] using hin
      · simp only [processRow, if_neg hu] at hin
        rcases mapKeys_mapSet m (rowAuthor parseUrl r) _ with heq | heq
        · left; exact heq ▸ hin
        · rw [heq, List.mem_append, List.mem_singleton] at hin
          rcases hin with hin | hin
          · exact Or.inl hin
          · exact Or.inr ⟨hin ▸ hu, r, List.mem_cons_self r rows, hin.symm⟩
    · exact Or.inr ⟨hne, r0, List.mem_cons_of_mem r hr0, hauth⟩

theorem nodup_keys_foldl_processRow (parseUrl : String → Except String UrlObj) :
    ∀ (rows : List PageRow) (m : List (String × AuthorAccum)),
      (mapKeys m).Nodup → (mapKeys (rows.foldl (processRow parseUrl) m)).Nodup := by
  intro rows
  induction rows with
  | nil => intro m h; exact h
  | cons r rows ih =>
    intro m h
    rw [List.foldl_cons]
    refine ih _ ?_
    by_cases hu : rowAuthor parseUrl r = "Unknown Author"
    · simpa [processRow, hu] using h
    · simp only [processRow, if_neg hu]
      exact nodup_mapKeys_mapSet m _ _ h

theorem mem_foldl_addArticle :
    ∀ (paths : List String) (l : List String) (x : String),
      x ∈ paths.foldl addArticle l ↔ x ∈ l ∨ x ∈ paths := by
  intro paths
  induction paths with
  | nil => intro l x; simp
  | cons p ps ih =>
    intro l x
    rw [List.foldl_cons, ih]
    by_cases hp : p ∈ l
    · simp only [addArticle, if_pos hp, List.mem_cons]
      constructor
      · rintro (h | h)
        · exact Or.inl h
        · exact Or.inr (Or.inr h)
      · rintro (h | h | h)
        · exact Or.inl h
        · exact Or.inl (h ▸ hp)
        · exact Or.inr h
    · simp only [addArticle, if_neg hp, List.mem_append, List.mem_singleton, List.mem_cons]
      tauto

theorem nodup_foldl_addArticle :
    ∀ (paths : List String) (l : List String), l.Nodup → (paths.foldl addArticle l).Nodup := by
  intro paths
  induction paths with
  | nil => intro l h; exact h
  | cons p ps ih =>
    intro l h
    rw [List.foldl_cons]
    refine ih _ ?_
    by_cases hp : p ∈ l
    · simpa [addArticle, hp] using h
    · simp only [addArticle, if_neg hp]
      simp [List.nodup_append, h, hp]

theorem length_foldl_addArticle_nil (paths : List String) :
    (paths.foldl addArticle []).length = paths.toFinset.card := by
  have hnd := nodup_foldl_addArticle paths [] (by simp)
  have hfs : (paths.foldl addArticle []).toFinset = paths.toFinset := by
    ext x
    simp [List.mem_toFinset, mem_foldl_addArticle]
  rw [← List.toFinset_card_of_nodup hnd, hfs]

/-- C8: the author aggregation groups rows by extracted author (each
entry's total is the sum of pageviews of the rows attributed to its
author, its article count the number of distinct attributed paths, and
its average their quotient), excludes pages with the sentinel author
entirely, is sorted descending by total pageviews, is truncated to at
most `topN` entries, and, when `topN` covers all attributed authors,
contains an entry for every one of them. -/
theorem fetchAuthorData_aggregation (parseUrl : String → Except String UrlObj)
    (rows : List PageRow) (topN : Nat) :
    (∀ e ∈ aggregateAuthorData parseUrl rows topN, e.author ≠ "Unknown Author") ∧
    (aggregateAuthorData parseUrl rows topN).length ≤ topN ∧
    List.Sorted byViewsDesc (aggregateAuthorData parseUrl rows topN) ∧
    (∀ e ∈ aggregateAuthorData parseUrl rows topN,
      e.totalPageviews = sumViewsFor parseUrl rows e.author ∧
      e.articles = distinctPathsFor parseUrl rows e.author ∧
      e.avgPageviews = (e.totalPageviews : ℚ) / (e.articles : ℚ)) ∧
    ((attributedAuthors parseUrl rows).toFinset.card ≤ topN →
      ∀ a ∈ attributedAuthors parseUrl rows,
        ∃ e ∈ aggregateAuthorData parseUrl rows topN, e.author = a) := by
  set m := rows.foldl (processRow parseUrl) [] with hm
  set arr := m.map (fun e =>
    AuthorData.mk e.1 e.2.articles.length e.2.totalPageviews
      ((e.2.totalPageviews : ℚ) / (e.2.articles.length : ℚ))) with harr
  have hres : aggregateAuthorData parseUrl rows topN =
      (List.insertionSort byViewsDesc arr).take topN := rfl
  have hndk : (mapKeys m).Nodup := nodup_keys_foldl_processRow parseUrl rows [] (by simp [mapKeys])
  have hsub : ∀ e ∈ aggregateAuthorData parseUrl rows topN, e ∈ arr := by
    intro e he
    rw [hres] at he
    exact (List.mem_insertionSort byViewsDesc).mp (List.mem_of_mem_take he)
  have helem : ∀ e ∈ arr, e.author ≠ "Unknown Author" ∧
      e.totalPageviews = sumViewsFor parseUrl rows e.author ∧
      e.articles = distinctPathsFor parseUrl rows e.author ∧
      e.avgPageviews = (e.totalPageviews : ℚ) / (e.articles : ℚ) := by
    intro e he
    obtain ⟨p, hp, hfe⟩ := List.mem_map.mp he
    subst hfe
    have hkey : p.1 ∈ mapKeys m := List.mem_map.mpr ⟨p, hp, rfl⟩
    have hne : p.1 ≠ "Unknown Author" := by
      rcases keys_foldl_processRow parseUrl rows [] p.1 (hm ▸ hkey) with h0 | ⟨hne, _⟩
      · simp [mapKeys] at h0
      · exact hne
    have hget : mapGet m p.1 = some p.2 := mapGet_eq_some_of_mem m hndk p.1 p.2 hp
    have hfold := mapGet_foldl_processRow parseUrl p.1 hne rows []
    rw [mapGet_nil, ← hm] at hfold
    have hopt : optFold parseUrl p.1 rows none = some p.2 := hfold.symm.trans hget
    have htot := optFold_total parseUrl p.1 rows none
    rw [hopt] at htot
    have hart := optFold_articles parseUrl p.1 rows none
    rw [hopt] at hart
    refine ⟨hne, by simpa using htot, ?_, rfl⟩
    show p.2.articles.length = distinctPathsFor parseUrl rows p.1
    rw [show ((some p.2).getD ⟨[], 0⟩).articles = p.2.articles from rfl] at hart
    rw [hart]
    simpa [distinctPathsFor] using length_foldl_addArticle_nil (pathsFor parseUrl rows p.1)
  refine ⟨fun e he => (helem e (hsub e he)).1, ?_, ?_, fun e he => (helem e (hsub e he)).2, ?_⟩
  · rw [hres]
    exact List.length_take_le topN _
  · rw [hres]
    exact List.Pairwise.sublist (List.take_sublist topN _)
      (List.sorted_insertionSort byViewsDesc arr)
  · intro hcard a hatt
    have hsplit : (∃ r, r ∈ rows ∧ rowAuthor parseUrl r = a) ∧ a ≠ "Unknown Author" := by
      simpa [attributedAuthors, List.mem_filter, List.mem_map] using hatt
    have hsome : (mapGet m a).isSome = true := by
      rw [hm, mapGet_foldl_processRow parseUrl a hsplit.2 rows [], mapGet_nil]
      exact optFold_isSome_of_hit parseUrl a rows none hsplit.1
    have hkeys : a ∈ mapKeys m := mem_mapKeys_of_mapGet_isSome m a hsome
    obtain ⟨p, hp, hpa⟩ := List.mem_map.mp hkeys
    have hlen : arr.length ≤ topN := by
      have h1 : arr.length = (mapKeys m).length := by
        rw [harr]
        simp [mapKeys]
      have h2 : (mapKeys m).length = (mapKeys m).toFinset.card :=
        (List.toFinset_card_of_nodup hndk).symm
      have h3 : (mapKeys m).toFinset = (attributedAuthors parseUrl rows).toFinset := by
        ext x
        simp only [List.mem_toFinset]
        constructor
        · intro hx
          rcases keys_foldl_processRow parseUrl rows [] x (hm ▸ hx) with h0 | ⟨hne2, r1, hr1, ha1⟩
          · simp [mapKeys] at h0
          · simp only [attributedAuthors, List.mem_filter, List.mem_map]
            exact ⟨⟨r1, hr1, ha1⟩, by simpa using hne2⟩
        · intro hx
          have hx2 : (∃ r, r ∈ rows ∧ rowAuthor parseUrl r = x) ∧ x ≠ "Unknown Author" := by
            simpa [attributedAuthors, List.mem_filter, List.mem_map] using hx
          apply mem_mapKeys_of_mapGet_isSome
          rw [hm, mapGet_foldl_processRow parseUrl x hx2.2 rows [], mapGet_nil]
          exact optFold_isSome_of_hit parseUrl x rows none hx2.1
      rw [h1, h2, h3]
      exact hcard
    have hfull : (List.insertionSort byViewsDesc arr).take topN =
        List.insertionSort byViewsDesc arr := by
      apply List.take_of_length_le
      rw [List.length_insertionSort]
      exact hlen
    refine ⟨AuthorData.mk p.1 p.2.articles.length p.2.totalPageviews
      ((p.2.totalPageviews : ℚ) / (p.2.articles.length : ℚ)), ?_, hpa⟩
    rw [hres, hfull]
    exact (List.mem_insertionSort byViewsDesc).mpr (List.mem_map.mpr ⟨p, hp, rfl⟩)

/-- Witness for C8: on four concrete rows (two by Jane Doe, one by John
Smith, one unattributable) with `topN = 10`, the aggregation contains an
entry for Jane Doe. -/
theorem fetchAuthorData_aggregation_witness :
    ∃ e ∈ aggregateAuthorData rejectingParseUrl
        [⟨"/author/jane-doe/post1", 100⟩, ⟨"/author/jane-doe/post2", 50⟩,
         ⟨"/author/john-smith/review", 120⟩, ⟨"/pricing", 10⟩] 10,
      e.author = "Jane Doe" :=
  (fetchAuthorData_aggregation rejectingParseUrl
    [⟨"/author/jane-doe/post1", 100⟩, ⟨"/author/jane-doe/post2", 50⟩,
     ⟨"/author/john-smith/review", 120⟩, ⟨"/pricing", 10⟩] 10).2.2.2.2
    (by decide) "Jane Doe" (by decide)

/-- C3 counterexample: for `last-3m` with "today" = 2024-06-15 the current
window runs 2024-03-14..2024-06-14 (93 days) while the previous window
runs 2023-12-15..2024-03-13 (90 days): the two windows do not have
identical length, against the claim that every selector yields a previous
window of the same length as the current one. -/
theorem getDateRange_3m_unequal_lengths_counterexample :
    getDateRange DateRange.last3m (daysFromCivil 2024 6 15) =
      ⟨daysFromCivil 2024 3 14, daysFromCivil 2024 6 14,
       daysFromCivil 2023 12 15, daysFromCivil 2024 3 13⟩ ∧
    (getDateRange DateRange.last3m (daysFromCivil 2024 6 15)).endDate -
      (getDateRange DateRange.last3m (daysFromCivil 2024 6 15)).startDate + 1 = 93 ∧
    (getDateRange DateRange.last3m (daysFromCivil 2024 6 15)).previousEndDate -
      (getDateRange DateRange.last3m (daysFromCivil 2024 6 15)).previousStartDate + 1 = 90 ∧
    (93 : Int) ≠ 90 := by
  exact ⟨by decide, by decide, by decide, by decide⟩

/-- C3 amended: for every "today" and selector, `endDate` is yesterday and
the previous window ends the day before `startDate` (no gap, no overlap);
for the day-based selectors `last-28d` and `last-30d` the previous window
has the same length as the current one (28 resp. 30 days); for the
month-based selectors `last-3m` and `last-6m` the previous window has the
fixed length 90 resp. 180 days, which can differ from the current
window's length; for `last-28d` with today = 2024-06-15 the window is
2024-05-18..2024-06-14 as the specification's example states. -/
theorem getDateRange_windows (today : Int) (sel : DateRange) :
    (getDateRange sel today).endDate = today - 1 ∧
    (getDateRange sel today).previousEndDate = (getDateRange sel today).startDate - 1 ∧
    (sel = DateRange.last28d →
      (getDateRange sel today).startDate = (getDateRange sel today).endDate - 27 ∧
      (getDateRange sel today).previousStartDate =
        (getDateRange sel today).previousEndDate - 27) ∧
    (sel = DateRange.last30d →
      (getDateRange sel today).startDate = (getDateRange sel today).endDate - 29 ∧
      (getDateRange sel today).previousStartDate =
        (getDateRange sel today).previousEndDate - 29) ∧
    (sel = DateRange.last3m →
      (getDateRange sel today).previousStartDate =
        (getDateRange sel today).previousEndDate - 89) ∧
    (sel = DateRange.last6m →
      (getDateRange sel today).previousStartDate =
        (getDateRange sel today).previousEndDate - 179) ∧
    (getDateRange DateRange.last28d (daysFromCivil 2024 6 15)).endDate =
      daysFromCivil 2024 6 14 ∧
    (getDateRange DateRange.last28d (daysFromCivil 2024 6 15)).startDate =
      daysFromCivil 2024 5 18 := by
  refine ⟨?_, ?_, ?_, ?_, ?_, ?_, by decide, by decide⟩
  · cases sel <;> (simp only [getDateRange, jsSetDate]; ring)
  · cases sel <;> (simp only [getDateRange, jsSetDate]; ring)
  · rintro rfl
    exact ⟨by simp only [getDateRange, jsSetDate]; ring,
           by simp only [getDateRange, jsSetDate]; ring⟩
  · rintro rfl
    exact ⟨by simp only [getDateRange, jsSetDate]; ring,
           by simp only [getDateRange, jsSetDate]; ring⟩
  · rintro rfl
    simp only [getDateRange, jsSetDate]; ring
  · rintro rfl
    simp only [getDateRange, jsSetDate]; ring

/-- Witness for C3 (amended): the per-selector conjuncts instantiated at
today = 2024-06-15. -/
theorem getDateRange_windows_witness :
    (getDateRange DateRange.last28d (daysFromCivil 2024 6 15)).startDate =
      (getDateRange DateRange.last28d (daysFromCivil 2024 6 15)).endDate - 27 ∧
    (getDateRange DateRange.last3m (daysFromCivil 2024 6 15)).previousStartDate =
      (getDateRange DateRange.last3m (daysFromCivil 2024 6 15)).previousEndDate - 89 :=
  ⟨((getDateRange_windows (daysFromCivil 2024 6 15) DateRange.last28d).2.2.1 rfl).1,
   (getDateRange_windows (daysFromCivil 2024 6 15) DateRange.last3m).2.2.2.2.1 rfl⟩

/-! ### Embedding of the report orchestrator (`fetchAnalyticsData`) -/

/-- One metric row of a GSC search-analytics response. -/
structure GscDataRow where
  key : String
  clicks : Nat
  impressions : Nat
  ctr : ℚ
  position : Option ℚ

/-- One time point of a trend series. -/
structure TimeseriesData where
  date : String
  sessions : Option Nat
  clicks : Option Nat
  impressions : Option Nat

/-- The GA4 aggregate totals of a period. -/
structure Ga4Totals where
  sessions : Nat
  pageviews : Nat

/-- One KPI card of the report. -/
structure Kpi where
  label : String
  value : String
  change : Option String
  changeType : Option GrowthType

/-- One diagnostics row of the report. -/
structure DiagnosticData where
  property : String
  value : String

/-- The web-search metric tables of the report. -/
structure GscWebTables where
  keywords : List GscDataRow
  urls : List GscDataRow
  countries : List GscDataRow
  devices : List GscDataRow

/-- The discover-surface metric tables of the report. -/
structure GscDiscoverTables where
  urls : List GscDataRow
  countries : List GscDataRow
  devices : List GscDataRow

/-- Both per-surface table groups. -/
structure GscTables where
  web : GscWebTables
  discover : GscDiscoverTables

/-- The two trend series of the report. -/
structure TrendsData where
  ga4 : List TimeseriesData
  gsc : List TimeseriesData

/-- The assembled report (`AppData`). -/
structure AppData where
  kpis : List Kpi
  diagnostics : List DiagnosticData
  gsc : GscTables
  authors : List AuthorData
  trends : TrendsData

/-- The filter configuration (`FilterState`). -/
structure FilterState where
  dateRange : DateRange
  compare : Bool
  topN : Nat
  authorAnalysis : Bool
  ga4Property : String
  gscSite : String

/-- The settled outcomes of the twelve promises of the orchestrator's
`Promise.all` fan-out, in array order. -/
structure ProviderResults where
  gscWebKeywords : Except String (List GscDataRow)
  gscWebUrls : Except String (List GscDataRow)
  gscWebCountries : Except String (List GscDataRow)
  gscWebDevices : Except String (List GscDataRow)
  gscDiscoverUrls : Except String (List GscDataRow)
  gscDiscoverCountries : Except String (List GscDataRow)
  gscDiscoverDevices : Except String (List GscDataRow)
  ga4CurrentTotals : Except String Ga4Totals
  ga4PreviousTotals : Except String Ga4Totals
  ga4Trends : Except String (List TimeseriesData)
  gscTrends : Except String (List TimeseriesData)
  authorData : Except String (List AuthorData)

/-- Truthiness filter on a nullable string (the empty string is falsy). -/
def optTruthy (o : Option String) : Option String :=
  match o with
  | some s => if s = "" then none else some s
  | none => none

/-- The `YYYY-MM-DD` rendering of a day number
(`toISOString().split('T')[0]`). -/
def toApiDateString (t : Int) : String :=
  padZeros (Nat.repr (civilFromDays t).1.toNat) 4 ++ "-" ++
  padZeros (Nat.repr (civilFromDays t).2.1.toNat) 2 ++ "-" ++
  padZeros (Nat.repr (civilFromDays t).2.2.toNat) 2

/-- The ninth `Promise.all` slot: the previous-period totals fetch when
`compare` is on, else `Promise.resolve({sessions: 0, pageviews: 0})`. -/
def prevTotalsResult (filters : FilterState) (pr : ProviderResults) : Except String Ga4Totals :=
  if filters.compare then pr.ga4PreviousTotals else Except.ok ⟨0, 0⟩

/-- The twelfth `Promise.all` slot: the author fetch when
`authorAnalysis` is on, else `Promise.resolve([])`. -/
def authorDataResult (filters : FilterState) (pr : ProviderResults) :
    Except String (List AuthorData) :=
  if filters.authorAnalysis then pr.authorData else Except.ok []

/-- Embedding of `fetchAnalyticsData`: the `Promise.all` fan-out is
represented by the settled `ProviderResults`; a rejected promise makes
the whole computation the corresponding `Except.error`, and the report is
assembled only when every awaited result is `ok`.  The conditional
fetches resolve to zero-valued defaults when their flag is off, exactly
as the source's `Promise.resolve(...)` arms do. -/
def fetchAnalyticsData (filters : FilterState) (today : Int) (pr : ProviderResults) :
    Except String AppData := do
  let dates := getDateRange filters.dateRange today
  let startDate := toApiDateString dates.startDate
  let endDate := toApiDateString dates.endDate
  let gscWebKeywords ← pr.gscWebKeywords
  let gscWebUrls ← pr.gscWebUrls
  let gscWebCountries ← pr.gscWebCountries
  let gscWebDevices ← pr.gscWebDevices
  let gscDiscoverUrls ← pr.gscDiscoverUrls
  let gscDiscoverCountries ← pr.gscDiscoverCountries
  let gscDiscoverDevices ← pr.gscDiscoverDevices
  let ga4CurrentTotals ← pr.ga4CurrentTotals
  let ga4PreviousTotals ← prevTotalsResult filters pr
  let ga4Trends ← pr.ga4Trends
  let gscTrends ← pr.gscTrends
  let authorData ← authorDataResult filters pr
  let currentPeriodSessions := ga4CurrentTotals.sessions
  let currentPeriodPageviews := ga4CurrentTotals.pageviews
  let previousPeriodSessions := ga4PreviousTotals.sessions
  let previousPeriodPageviews := ga4PreviousTotals.pageviews
  let totalGscClicks := (gscWebKeywords.map (fun r => r.clicks)).sum
  let totalGscImpressions := (gscWebKeywords.map (fun r => r.impressions)).sum
  let avgPosition : ℚ :=
    if gscWebKeywords.length > 0 then
      ((gscWebKeywords.map (fun r => r.position.getD 0)).sum) / (gscWebKeywords.length : ℚ)
    else 0
  let sessionsGrowth : Option String :=
    if filters.compare then
      some (calculateGrowth (currentPeriodSessions : ℚ) (previousPeriodSessions : ℚ))
    else none
  let pageviewsGrowth : Option String :=
    if filters.compare then
      some (calculateGrowth (currentPeriodPageviews : ℚ) (previousPeriodPageviews : ℚ))
    else none
  let highestSessionsDay := ga4Trends.foldl
    (fun mx day => if day.sessions.getD 0 > mx.sessions.getD 0 then day else mx)
    ⟨"", some 0, none, none⟩
  Except.ok {
    kpis := [
      ⟨"Sessions", shortFormatNumber currentPeriodSessions, sessionsGrowth,
        (optTruthy sessionsGrowth).map getGrowthType⟩,
      ⟨"Pageviews", shortFormatNumber currentPeriodPageviews, pageviewsGrowth,
        (optTruthy pageviewsGrowth).map getGrowthType⟩,
      ⟨"Pages/Session", formatDecimal (if currentPeriodSessions > 0 then
        (currentPeriodPageviews : ℚ) / (currentPeriodSessions : ℚ) else 0) 1, none, none⟩,
      ⟨"GSC Clicks", shortFormatNumber totalGscClicks, none, none⟩,
      ⟨"GSC Impressions", shortFormatNumber totalGscImpressions, none, none⟩,
      ⟨"GSC CTR", formatPercentage (if totalGscImpressions > 0 then
        (totalGscClicks : ℚ) / (totalGscImpressions : ℚ) else 0) 2, none, none⟩,
      ⟨"Avg Position", formatDecimal avgPosition 1, none, none⟩],
    diagnostics := [
      ⟨"Analysis Period", startDate ++ " to " ++ endDate⟩,
      ⟨"GA4 Property", filters.ga4Property⟩,
      ⟨"GSC Site", filters.gscSite⟩,
      ⟨"Total Sessions", formatNumber currentPeriodSessions⟩,
      ⟨"Total Pageviews", formatNumber currentPeriodPageviews⟩,
      ⟨"Sessions Growth", (optTruthy sessionsGrowth).getD "—"⟩,
      ⟨"Pageviews Growth", (optTruthy pageviewsGrowth).getD "—"⟩,
      ⟨"Highest Sessions Day",
        if highestSessionsDay.date ≠ "" then
          highestSessionsDay.date ++ " (" ++
            formatNumber (highestSessionsDay.sessions.getD 0) ++ ")"
        else "—"⟩,
      ⟨"Pages per Session", formatDecimal (if currentPeriodSessions > 0 then
        (currentPeriodPageviews : ℚ) / (currentPeriodSessions : ℚ) else 0) 1⟩,
      ⟨"GSC Total Clicks", formatNumber totalGscClicks⟩,
      ⟨"GSC Total Impressions", formatNumber totalGscImpressions⟩,
      ⟨"GSC Average CTR", formatPercentage (if totalGscImpressions > 0 then
        (totalGscClicks : ℚ) / (totalGscImpressions : ℚ) else 0) 2⟩,
      ⟨"GSC Average Position", formatDecimal avgPosition 1⟩,
      ⟨"Top Performing Device",
        match gscWebDevices.head? with
        | some row => if row.key = "" then "—" else row.key
        | none => "—"⟩],
    gsc := ⟨⟨gscWebKeywords, gscWebUrls, gscWebCountries, gscWebDevices⟩,
            ⟨gscDiscoverUrls, gscDiscoverCountries, gscDiscoverDevices⟩⟩,
    authors := authorData,
    trends := ⟨ga4Trends, gscTrends⟩ }

/-- Error observation on an `Except`. -/
def isErr {ε α : Type} : Except ε α → Bool
  | Except.error _ => true
  | Except.ok _ => false

/-- Failure of at least one of the ten required fetches (the seven GSC
metric-row fetches, the current-period GA4 totals fetch, and the two
trend fetches; the previous-totals and author fetches are conditional). -/
def requiredFailure (pr : ProviderResults) : Prop :=
  isErr pr.gscWebKeywords = true ∨ isErr pr.gscWebUrls = true ∨
  isErr pr.gscWebCountries = true ∨ isErr pr.gscWebDevices = true ∨
  isErr pr.gscDiscoverUrls = true ∨ isErr pr.gscDiscoverCountries = true ∨
  isErr pr.gscDiscoverDevices = true ∨ isErr pr.ga4CurrentTotals = true ∨
  isErr pr.ga4Trends = true ∨ isErr pr.gscTrends = true

theorem except_bind_ok {ε α β : Type} (x : Except ε α) (f : α → Except ε β) (b : β)
    (h : x >>= f = Except.ok b) : ∃ v, x = Except.ok v ∧ f v = Except.ok b := by
  cases x with
  | error e => simp [Bind.bind, Except.bind] at h
  | ok v => exact ⟨v, rfl, by simpa [Bind.bind, Except.bind] using h⟩

theorem fetchAnalyticsData_ok_implies (filters : FilterState) (today : Int)
    (pr : ProviderResults) (a : AppData)
    (h : fetchAnalyticsData filters today pr = Except.ok a) :
    isErr pr.gscWebKeywords = false ∧ isErr pr.gscWebUrls = false ∧
    isErr pr.gscWebCountries = false ∧ isErr pr.gscWebDevices = false ∧
    isErr pr.gscDiscoverUrls = false ∧ isErr pr.gscDiscoverCountries = false ∧
    isErr pr.gscDiscoverDevices = false ∧ isErr pr.ga4CurrentTotals = false ∧
    isErr pr.ga4Trends = false ∧ isErr pr.gscTrends = false := by
  simp only [fetchAnalyticsData] at h
  obtain ⟨wk, hwk, h⟩ := except_bind_ok _ _ _ h
  obtain ⟨wu, hwu, h⟩ := except_bind_ok _ _ _ h
  obtain ⟨wc, hwc, h⟩ := except_bind_ok _ _ _ h
  obtain ⟨wd, hwd, h⟩ := except_bind_ok _ _ _ h
  obtain ⟨du, hdu, h⟩ := except_bind_ok _ _ _ h
  obtain ⟨dc, hdc, h⟩ := except_bind_ok _ _ _ h
  obtain ⟨dd, hdd, h⟩ := except_bind_ok _ _ _ h
  obtain ⟨ct, hct, h⟩ := except_bind_ok _ _ _ h
  obtain ⟨pt, hpt, h⟩ := except_bind_ok _ _ _ h
  obtain ⟨g4, hg4, h⟩ := except_bind_ok _ _ _ h
  obtain ⟨gt, hgt, h⟩ := except_bind_ok _ _ _ h
  exact ⟨by simp [isErr, hwk], by simp [isErr, hwu], by simp [isErr, hwc],
    by simp [isErr, hwd], by simp [isErr, hdu], by simp [isErr, hdc],
    by simp [isErr, hdd], by simp [isErr, hct], by simp [isErr, hg4],
    by simp [isErr, hgt]⟩

/-- C1: if any of the ten required fetches rejects, `fetchAnalyticsData`
rejects — no `AppData` report is constructed or returned — and the error
of the first rejecting slot (in `Promise.all` array order, all slots
before it having resolved) is the error of the whole computation; in
particular a web-keywords rejection propagates verbatim. -/
theorem fetchAnalyticsData_fail_fast (filters : FilterState) (today : Int)
    (pr : ProviderResults) :
    (requiredFailure pr → ∀ a, fetchAnalyticsData filters today pr ≠ Except.ok a) ∧
    (∀ e, pr.gscWebKeywords = Except.error e →
      fetchAnalyticsData filters today pr = Except.error e) ∧
    (∀ e wk, pr.gscWebKeywords = Except.ok wk →
      pr.gscWebUrls = Except.error e →
      fetchAnalyticsData filters today pr = Except.error e) ∧
    (∀ e wk wu, pr.gscWebKeywords = Except.ok wk → pr.gscWebUrls = Except.ok wu →
      pr.gscWebCountries = Except.error e →
      fetchAnalyticsData filters today pr = Except.error e) ∧
    (∀ e wk wu wc, pr.gscWebKeywords = Except.ok wk → pr.gscWebUrls = Except.ok wu →
      pr.gscWebCountries = Except.ok wc →
      pr.gscWebDevices = Except.error e →
      fetchAnalyticsData filters today pr = Except.error e) ∧
    (∀ e wk wu wc wd, pr.gscWebKeywords = Except.ok wk → pr.gscWebUrls = Except.ok wu →
      pr.gscWebCountries = Except.ok wc → pr.gscWebDevices = Except.ok wd →
      pr.gscDiscoverUrls = Except.error e →
      fetchAnalyticsData filters today pr = Except.error e) ∧
    (∀ e wk wu wc wd du, pr.gscWebKeywords = Except.ok wk → pr.gscWebUrls = Except.ok wu →
      pr.gscWebCountries = Except.ok wc → pr.gscWebDevices = Except.ok wd →
      pr.gscDiscoverUrls = Except.ok du →
      pr.gscDiscoverCountries = Except.error e →
      fetchAnalyticsData filters today pr = Except.error e) ∧
    (∀ e wk wu wc wd du dc, pr.gscWebKeywords = Except.ok wk → pr.gscWebUrls = Except.ok wu →
      pr.gscWebCountries = Except.ok wc → pr.gscWebDevices = Except.ok wd →
      pr.gscDiscoverUrls = Except.ok du → pr.gscDiscoverCountries = Except.ok dc →
      pr.gscDiscoverDevices = Except.error e →
      fetchAnalyticsData filters today pr = Except.error e) ∧
    (∀ e wk wu wc wd du dc dd, pr.gscWebKeywords = Except.ok wk → pr.gscWebUrls = Except.ok wu →
      pr.gscWebCountries = Except.ok wc → pr.gscWebDevices = Except.ok wd →
      pr.gscDiscoverUrls = Except.ok du → pr.gscDiscoverCountries = Except.ok dc →
      pr.gscDiscoverDevices = Except.ok dd →
      pr.ga4CurrentTotals = Except.error e →
      fetchAnalyticsData filters today pr = Except.error e) ∧
    (∀ e wk wu wc wd du dc dd ct pt, pr.gscWebKeywords = Except.ok wk →
      pr.gscWebUrls = Except.ok wu →
      pr.gscWebCountries = Except.ok wc → pr.gscWebDevices = Except.ok wd →
      pr.gscDiscoverUrls = Except.ok du → pr.gscDiscoverCountries = Except.ok dc →
      pr.gscDiscoverDevices = Except.ok dd → pr.ga4CurrentTotals = Except.ok ct →
      (filters.compare = true → pr.ga4PreviousTotals = Except.ok pt) →
      pr.ga4Trends = Except.error e →
      fetchAnalyticsData filters today pr = Except.error e) ∧
    (∀ e wk wu wc wd du dc dd ct pt g4, pr.gscWebKeywords = Except.ok wk →
      pr.gscWebUrls = Except.ok wu →
      pr.gscWebCountries = Except.ok wc → pr.gscWebDevices = Except.ok wd →
      pr.gscDiscoverUrls = Except.ok du → pr.gscDiscoverCountries = Except.ok dc →
      pr.gscDiscoverDevices = Except.ok dd → pr.ga4CurrentTotals = Except.ok ct →
      (filters.compare = true → pr.ga4PreviousTotals = Except.ok pt) →
      pr.ga4Trends = Except.ok g4 →
      pr.gscTrends = Except.error e →
      fetchAnalyticsData filters today pr = Except.error e) := by
  refine ⟨?_, ?_, ?_, ?_, ?_, ?_, ?_, ?_, ?_, ?_, ?_⟩
  · intro hfail a hok
    obtain ⟨c1, c2, c3, c4, c5, c6, c7, c8, c9, c10⟩ :=
      fetchAnalyticsData_ok_implies filters today pr a hok
    rcases hfail with h | h | h | h | h | h | h | h | h | h <;> simp_all
  · intro e h
    simp [fetchAnalyticsData, h, Bind.bind, Except.bind]
  · intro e wk h1 h
    simp [fetchAnalyticsData, h1, h, Bind.bind, Except.bind]
  · intro e wk wu h1 h2 h
    simp [fetchAnalyticsData, h1, h2, h, Bind.bind, Except.bind]
  · intro e wk wu wc h1 h2 h3 h
    simp [fetchAnalyticsData, h1, h2, h3, h, Bind.bind, Except.bind]
  · intro e wk wu wc wd h1 h2 h3 h4 h
    simp [fetchAnalyticsData, h1, h2, h3, h4, h, Bind.bind, Except.bind]
  · intro e wk wu wc wd du h1 h2 h3 h4 h5 h
    simp [fetchAnalyticsData, h1, h2, h3, h4, h5, h, Bind.bind, Except.bind]
  · intro e wk wu wc wd du dc h1 h2 h3 h4 h5 h6 h
    simp [fetchAnalyticsData, h1, h2, h3, h4, h5, h6, h, Bind.bind, Except.bind]
  · intro e wk wu wc wd du dc dd h1 h2 h3 h4 h5 h6 h7 h
    simp [fetchAnalyticsData, h1, h2, h3, h4, h5, h6, h7, h, Bind.bind, Except.bind]
  · intro e wk wu wc wd du dc dd ct pt h1 h2 h3 h4 h5 h6 h7 h8 hpt h
    have hprev : ∃ v, prevTotalsResult filters pr = Except.ok v := by
      cases hc : filters.compare with
      | true => exact ⟨pt, by simp [prevTotalsResult, hc, hpt hc]⟩
      | false => exact ⟨⟨0, 0⟩, by simp [prevTotalsResult, hc]⟩
    obtain ⟨pv, hpv⟩ := hprev
    simp [fetchAnalyticsData, h1, h2, h3, h4, h5, h6, h7, h8, hpv, h, Bind.bind, Except.bind]
  · intro e wk wu wc wd du dc dd ct pt g4 h1 h2 h3 h4 h5 h6 h7 h8 hpt h9 h
    have hprev : ∃ v, prevTotalsResult filters pr = Except.ok v := by
      cases hc : filters.compare with
      | true => exact ⟨pt, by simp [prevTotalsResult, hc, hpt hc]⟩
      | false => exact ⟨⟨0, 0⟩, by simp [prevTotalsResult, hc]⟩
    obtain ⟨pv, hpv⟩ := hprev
    simp [fetchAnalyticsData, h1, h2, h3, h4, h5, h6, h7, h8, hpv, h9, h,
      Bind.bind, Except.bind]

/-- Witness for C1: with a concrete filter state and provider results
whose only failure is the web-keywords fetch, the orchestrator rejects
with exactly that error. -/
theorem fetchAnalyticsData_fail_fast_witness :
    fetchAnalyticsData ⟨DateRange.last28d, true, 10, true, "prop", "site"⟩ 19889
      ⟨Except.error "GSC (query) Error: quota", Except.ok [], Except.ok [], Except.ok [],
       Except.ok [], Except.ok [], Except.ok [], Except.ok ⟨1, 2⟩, Except.ok ⟨3, 4⟩,
       Except.ok [], Except.ok [], Except.ok []⟩ =
      Except.error "GSC (query) Error: quota" :=
  (fetchAnalyticsData_fail_fast ⟨DateRange.last28d, true, 10, true, "prop", "site"⟩ 19889
      ⟨Except.error "GSC (query) Error: quota", Except.ok [], Except.ok [], Except.ok [],
       Except.ok [], Except.ok [], Except.ok [], Except.ok ⟨1, 2⟩, Except.ok ⟨3, 4⟩,
       Except.ok [], Except.ok [], Except.ok []⟩).2.1 "GSC (query) Error: quota" rfl

/-- C6 counterexample: on the path `/blog/author/jane-doe/post` the
function returns `"Author"`, not `"Jane Doe"`: the `blog` pattern matches
the first segment before the scan ever reaches the `author` marker, and
its following segment `"author"` is neither a date nor a deny-listed
category word, so it is formatted as the author name. -/
theorem extractAuthor_blog_author_counterexample :
    extractAuthorFromUrl rejectingParseUrl "/blog/author/jane-doe/post" = "Author" ∧
    "Author" ≠ "Jane Doe" := by
  exact ⟨by decide, by decide⟩

/-- C6 amended: `/blog/author/jane-doe/post` yields `"Author"` (the `blog`
special-case fires first and takes the following segment `author` as the
slug), whatever the host URL parser does; the `author`-marker rule does
produce `"Jane Doe"` when no earlier segment matches, as on
`/author/jane-doe/post`. -/
theorem extractAuthor_blog_author_amended (parseUrl : String → Except String UrlObj) :
    extractAuthorFromUrl parseUrl "/blog/author/jane-doe/post" = "Author" ∧
    extractAuthorFromUrl parseUrl "/author/jane-doe/post" = "Jane Doe" := by
  exact ⟨rfl, rfl⟩

/-- C9: `extractAuthorFromUrl` is a total function; whenever its body
raises (the host URL parser rejecting is the only throwing step), the
catch yields the sentinel `"Unknown Author"`, and the scheme-less input
`"not a valid url"` is handled as a path and yields the sentinel. -/
theorem extractAuthor_never_throws (parseUrl : String → Except String UrlObj) (url : String) :
    (∀ e, extractAuthorCore parseUrl url = Except.error e →
      extractAuthorFromUrl parseUrl url = "Unknown Author") ∧
    extractAuthorFromUrl parseUrl "not a valid url" = "Unknown Author" := by
  refine ⟨fun e h => ?_, rfl⟩
  simp [extractAuthorFromUrl, h]

/-- Witness for C9: with a parser that rejects everything, the core indeed
raises on an `http://` input and the exported function returns the
sentinel. -/
theorem extractAuthor_never_throws_witness :
    extractAuthorCore rejectingParseUrl "http://x" = Except.error "http://x" ∧
    extractAuthorFromUrl rejectingParseUrl "http://x" = "Unknown Author" :=
  ⟨rfl, (extractAuthor_never_throws rejectingParseUrl "http://x").1 "http://x" rfl⟩

/-- C7: `calculateGrowth` satisfies the reference table: `(0, 0) ↦ "0%"`,
`(c, 0) ↦ "+100%"` for positive `c`, `(c, 0) ↦ "—"` for negative `c`,
`(150, 100) ↦ "+50.0%"`, and `(50, 100) ↦ "-50.0%"`. -/
theorem calculateGrowth_reference_table :
    calculateGrowth 0 0 = "0%" ∧
    (∀ c : ℚ, 0 < c → calculateGrowth c 0 = "+100%") ∧
    (∀ c : ℚ, c < 0 → calculateGrowth c 0 = "—") ∧
    calculateGrowth 150 100 = "+50.0%" ∧
    calculateGrowth 50 100 = "-50.0%" := by
  refine ⟨by simp [calculateGrowth], ?_, ?_, ?_, ?_⟩
  · intro c hc
    simp [calculateGrowth, hc, hc.ne']
  · intro c hc
    simp [calculateGrowth, hc.ne, not_lt.mpr hc.le]
  · have h : toFixed ((((150:ℚ) - 100)/100) * 100) 1 = "50.0" := by
      rw [toFixed_eval_nonneg _ _ 500 (by norm_num) (by norm_num) (by norm_num)]
      decide
    simp only [calculateGrowth, if_neg (by norm_num : ¬((100:ℚ) = 0)), formatPercentage,
      if_pos (by norm_num : ((150:ℚ) - 100)/100 ≥ 0), h]
    decide
  · have h : toFixed ((((50:ℚ) - 100)/100) * 100) 1 = "-" ++ "50.0" := by
      simp only [toFixed, if_pos (by norm_num : (((50:ℚ) - 100)/100) * 100 < 0)]
      rw [show |(((50:ℚ) - 100)/100) * 100| * (10:ℚ)^1 + 1/2 = 1001/2 by norm_num]
      rw [show ratFloor ((1001:ℚ)/2) = (500:ℤ) by rw [ratFloor_eq_floor]; norm_num]
      decide
    simp only [calculateGrowth, if_neg (by norm_num : ¬((100:ℚ) = 0)), formatPercentage,
      if_neg (by norm_num : ¬(((50:ℚ) - 100)/100 ≥ 0)), h]
    decide

/-- Witness for C7: the two hypothesis-bearing rows of the table hold at
`current = 3` and `current = -3`. -/
theorem calculateGrowth_reference_table_witness :
    calculateGrowth 3 0 = "+100%" ∧ calculateGrowth (-3) 0 = "—" :=
  ⟨calculateGrowth_reference_table.2.1 3 (by norm_num),
   calculateGrowth_reference_table.2.2.1 (-3) (by norm_num)⟩

/-- C10: for `previous ≠ 0` the growth string starts with `'+'` when the
relative change is non-negative and with `'-'` when it is negative. -/
theorem calculateGrowth_sign_char (current previous : ℚ) (h : previous ≠ 0) :
    (0 ≤ (current - previous) / previous →
      (calculateGrowth current previous).data.head? = some '+') ∧
    ((current - previous) / previous < 0 →
      (calculateGrowth current previous).data.head? = some '-') := by
  constructor
  · intro hp
    simp only [calculateGrowth, if_neg h, if_pos (show (current - previous) / previous ≥ 0 from hp)]
    rw [String.data_append]
    rfl
  · intro hp
    simp only [calculateGrowth, if_neg h, if_neg (show ¬ (current - previous) / previous ≥ 0 from
      not_le.mpr hp), formatPercentage]
    rw [String.data_append, List.head?_append]
    rw [toFixed_head_neg _ _ (mul_neg_of_neg_of_pos hp (by norm_num))]
    rfl

/-- Witness for C10: concrete sign prefixes at `(150, 100)` and `(50, 100)`. -/
theorem calculateGrowth_sign_char_witness :
    (calculateGrowth 150 100).data.head? = some '+' ∧
    (calculateGrowth 50 100).data.head? = some '-' :=
  ⟨(calculateGrowth_sign_char 150 100 (by norm_num)).1 (by norm_num),
   (calculateGrowth_sign_char 50 100 (by norm_num)).2 (by norm_num)⟩

end UltraAnalytics
